import Mathlib

/-!
Shallow embedding of the core of `tool-exiftool` (a terminal viewer for
exiftool metadata): the entry data model (`src/app/et_wrapper.rs`), the
session state with selection resolution, compare-index building, scrolling
and binary-save dialog (`src/app.rs`), and the remove-active-file key
handler (`src/main.rs`).

Modelling conventions:
  * Rust `String`/`&str` become Lean `String`; byte slicing in the source
    only ever occurs at ASCII boundaries and is modelled on character lists.
  * `usize`/`u64` become `Nat`; an `i8` scroll delta becomes `Int`
    (the callers only pass -1, 1 and 4); `u16` scroll offsets become `Nat`.
    No claim depends on wraparound, so no `% 2^w` reduction is needed.
  * `f32` (`binary_size_kb`, produced by parsing a digit string and dividing
    by 1024, hence never NaN) becomes `Rat`; only its equality is used.
  * Rust panics (`unwrap`, out-of-range indexing) are totalised to `none`
    or to dropping the element; every theorem that touches such a spot
    carries the in-range hypothesis that the program maintains.
-/

namespace ExifTui

/-- Primitive JSON value, as it appears as an element of an exiftool `-j`
list value (`serde_json::Value` restricted to the primitive cases that occur
in that position). The number case carries its decimal rendering. -/
inductive Json where
  | null : Json
  | bool (b : Bool) : Json
  | num (s : String) : Json
  | str (s : String) : Json
deriving DecidableEq, Repr

/-- Rendering of a primitive JSON value, as `serde_json`'s `Value::to_string`
produces it: strings are re-quoted (escape sequences inside the string are
not exercised by any claim and are omitted). -/
def Json.render : Json → String
  | .null => "null"
  | .bool true => "true"
  | .bool false => "false"
  | .num s => s
  | .str s => "\"" ++ s ++ "\""

/-- Rust `str::contains` for string patterns: substring containment. -/
def strContains (s pat : String) : Bool :=
  decide (List.IsInfix pat.data s.data)

/-- Rust `str::to_lowercase`, modelled per character (the mappings
exercised by the program are one-to-one). -/
def strToLower (s : String) : String :=
  ⟨s.data.map Char.toLower⟩

/-- Rust `str::starts_with` for string patterns. -/
def strStartsWith (s pre : String) : Bool :=
  decide (List.IsPrefix pre.data s.data)

/-- Rust `str::ends_with` for string patterns. -/
def strEndsWith (s suf : String) : Bool :=
  decide (List.IsSuffix suf.data s.data)

/-- `EtVal` from `et_wrapper.rs`: a tag value is either a scalar string or a
list of primitive JSON values. -/
inductive EtVal where
  | str (s : String) : EtVal
  | arr (vs : List Json) : EtVal
deriving DecidableEq, Repr

/-- `EtVal::check_filter`. The `Array` branch of the source is a loop that
sets a flag and breaks at the first element whose rendering contains the
filter, i.e. `List.any`. Note that the `String` branch lowercases the value
side while the `Array` branch lowercases neither side. -/
def EtVal.check_filter (v : EtVal) (filter : String) : Bool :=
  match v with
  | .str s => strContains (strToLower s) filter
  | .arr vs => vs.any (fun v => strContains v.render filter)

/-- `EtVal::to_string`. -/
def EtVal.render : EtVal → String
  | .str s => s
  | .arr vs => String.intercalate " " (vs.map Json.render)

/-- `TagEntry` from `et_wrapper.rs`. The source's `instance` field is named
`inst` here (`instance` is a Lean keyword). `name` is the human label
(`desc` in the JSON), `val`/`num` the value and numeric value, `index` the
ordinal index within a repeated group. -/
structure TagEntry where
  short_name : String
  inst : String
  binary_size_kb : Option Rat
  name : String
  id : Option Nat
  table : String × String
  val : EtVal
  num : Option EtVal
  index : Option Nat
deriving DecidableEq, Repr

/-- `TagEntryKey` from `et_wrapper.rs`: structural identity of an entry. -/
structure TagEntryKey where
  short_name : String
  table : String × String
deriving DecidableEq, Repr

/-- `TagEntry::as_key`. -/
def TagEntry.as_key (e : TagEntry) : TagEntryKey :=
  { short_name := e.short_name, table := e.table }

/-- The `PartialEq` implementation for `TagEntry`: compares `short_name`,
`binary_size_kb`, `id`, `table`, `val` and `index`; `name` (the display
name), `num` (the numeric value) and `inst` are not compared. -/
def tagEq (a b : TagEntry) : Bool :=
  decide (a.short_name = b.short_name
    ∧ a.binary_size_kb = b.binary_size_kb
    ∧ a.id = b.id
    ∧ a.table = b.table
    ∧ a.val = b.val
    ∧ a.index = b.index)

/-- `TagEntry::table_to_string`. -/
def TagEntry.table_to_string (e : TagEntry) : String :=
  if e.table.2.isEmpty then e.table.1 else e.table.1 ++ "::" ++ e.table.2

/-- Strip `n` characters from each end of a string (the source's byte slice
`&filter[2..filter.len()-2]`, whose boundaries are the ASCII characters of
`<<`/`>>`). -/
def stripEnds (s : String) (n : Nat) : String :=
  ⟨(s.data.drop n).take (s.data.length - 2 * n)⟩

/-- `TagEntry::check_filter` (the spec's `matches_filter`): lowercases the
filter once, then either matches `<<X>>` against the rendered table string,
or matches the lowercased name / short name, the value, or the numeric
value. -/
def TagEntry.check_filter (e : TagEntry) (filter : String) : Bool :=
  let filter := strToLower filter
  if strStartsWith filter "<<" && strEndsWith filter ">>" then
    strContains (strToLower e.table_to_string) (stripEnds filter 2)
  else
    strContains (strToLower e.name) filter
      || strContains (strToLower e.short_name) filter
      || e.val.check_filter filter
      || (match e.num with
          | some num => num.check_filter filter
          | none => false)

/-- `ExiftoolEntry` from `et_wrapper.rs`: one input file's identity and its
entries in extraction order. -/
structure ExiftoolEntry where
  file_name : String
  tag_entries : List TagEntry
deriving DecidableEq, Repr

/-- `Result<String, String>` used for the dialog status and the log
message. -/
inductive SaveStatus where
  | ok (msg : String) : SaveStatus
  | err (msg : String) : SaveStatus
deriving DecidableEq, Repr

/-- `BinarySaveDialog` from `app.rs`. -/
structure BinarySaveDialog where
  fname : String
  fext : String
  status : SaveStatus
  editing_fname : Bool
deriving DecidableEq, Repr

/-- `CompareData` from `app.rs`: `mode = none` is compare-off, `some d`
is compare-on with diff-only flag `d`; `data` is the compare-row table. -/
structure CompareData where
  mode : Option Bool
  data : List (TagEntry × List (Option TagEntry))
deriving DecidableEq, Repr

/-- `MainState` from `app.rs`, restricted to the fields the core logic
reads or writes (`user_dirs` is replaced by the explicit filesystem model
`SaveFS` below; `multiple_files_input`, `show_details` and
`data_display_mode` are presentation-only and never touched by the
modelled operations). -/
structure MainState where
  current_file : String
  binary_save_dialog : Option BinarySaveDialog
  filter : String
  num_entries_shown : Nat
  et_data : List ExiftoolEntry
  current_file_index : Nat
  scroll_offset : Nat × Nat
  cursor : Nat
  log_msg : Option SaveStatus
  compare_data : CompareData
deriving DecidableEq, Repr

/-- `MainState::scrollv`. The source's `i8` delta is modelled as `Int`
(callers pass only -1 and 1); `saturating_sub`/`saturating_add` on `usize`
become truncated subtraction and plain addition on `Nat`. -/
def MainState.scrollv (s : MainState) (delta : Int) : MainState :=
  if delta < 0 then
    { s with cursor := s.cursor - (-delta).toNat }
  else
    { s with cursor := min (s.cursor + delta.toNat) (s.num_entries_shown - 1) }

/-- `MainState::scrollv_drag_cursor` (delta again modelled as `Int`;
callers pass -1, 1 and 4). -/
def MainState.scrollv_drag_cursor (s : MainState) (delta : Int) : MainState :=
  if delta < 0 then
    { s with scroll_offset := (s.scroll_offset.1 - (-delta).toNat, s.scroll_offset.2),
             cursor := s.cursor - (-delta).toNat }
  else
    { s with scroll_offset := (s.scroll_offset.1 + delta.toNat, s.scroll_offset.2),
             cursor := min (s.cursor + delta.toNat) (s.num_entries_shown - 1) }

/-- The `check_filter` closure shared (verbatim) by
`MainState::selected_entry` and `ui.rs`'s `draw_main_compare`: a compare
row passes the filter when the filter is empty or some present per-file
entry matches it. -/
def rowCheckFilter (filter : String) (v : List (Option TagEntry)) : Bool :=
  filter.isEmpty
    || v.any (fun o => match o with
        | some e => e.check_filter filter
        | none => false)

/-- The `check_diff` closure shared (verbatim) by
`MainState::selected_entry` and `ui.rs`'s `draw_main_compare`: with
diff-only off every row passes; with diff-only on a row passes (is
"differing") unless every slot is either absent together with the first
slot or present and `tagEq`-equal to a present first slot. The source
reads `v[0]`, which panics on an empty row; rows always have one slot per
file, so the row is never empty — modelled as `headD none`. -/
def slotAligned (first entry : Option TagEntry) : Bool :=
  (entry.isNone && first.isNone)
    || (match entry, first with
        | some e, some f => tagEq e f
        | _, _ => false)

def checkDiff (only_diff : Bool) (v : List (Option TagEntry)) : Bool :=
  if !only_diff then
    true
  else
    let first := v.headD none
    !(v.all (slotAligned first))

/-- `MainState::selected_entry`. Compare mode off: the cursor indexes the
active file's entries filtered by the filter predicate. Compare mode on:
the cursor indexes the compare rows filtered by the filter and diff
predicates, and the result is the row's slot at `current_file_index`.
The source's `self.et_data[self.current_file_index]` and
`entry.1[self.current_file_index]` panic when the index is out of range
(the program keeps it in range); both are totalised to `none`. -/
def MainState.selected_entry (s : MainState) : Option TagEntry :=
  match s.compare_data.mode with
  | some only_diff =>
    (((s.compare_data.data.filter
          (fun ee => rowCheckFilter s.filter ee.2 && checkDiff only_diff ee.2)).map
        (fun entry => entry.2.getD s.current_file_index none)).get? s.cursor).getD none
  | none =>
    match s.et_data.get? s.current_file_index with
    | none => none
    | some fd =>
      (fd.tag_entries.filter
        (fun ee => s.filter.isEmpty || ee.check_filter s.filter)).get? s.cursor

/-- A per-file key-to-entry map (`HashMap<TagEntryKey, TagEntry>` in the
source), modelled as a lookup function. -/
def FileMap : Type := TagEntryKey → Option TagEntry

/-- Building one file's key map: the source collects
`tag_entries.iter().map(|e| (e.as_key(), e.clone()))` into a `HashMap`,
so a later entry overwrites an earlier one colliding on the key. -/
def buildFileMap (es : List TagEntry) : FileMap :=
  es.foldl (fun m e => fun k => if k = e.as_key then some e else m k)
    (fun _ => none)

/-- First present slot of a row: models the source's `main_val`, which the
row-building map sets at the first file where the key is present. -/
def firstSome (l : List (Option TagEntry)) : Option TagEntry :=
  (l.find? Option.isSome).getD none

/-- The distinct `TagEntryKey`s across all files (the key set of the
source's `keys: HashSet`), as a duplicate-free list in first-seen order. -/
def keyUnion (etData : List ExiftoolEntry) : List TagEntryKey :=
  ((etData.map (fun f => f.tag_entries.map TagEntry.as_key)).flatten).dedup

/-- `MainState::calculate_compare_data`. The source iterates over a
`HashSet` of the union keys, whose iteration order is left to the hasher;
that order is the explicit `keyOrder` parameter here (a permutation of
`keyUnion` in any actual run). For each key the row's slots are the
per-file map lookups in file order and the representative is the first
present slot (`main_val.unwrap()` — the unwrap panics when the key is in
no file, which cannot happen for keys drawn from the union; such keys are
dropped here). The source precomputes the list of per-file maps and then
looks each one up per key; the two maps are fused into one here
(`rowAt` is one key's row). -/
def rowAt (etData : List ExiftoolEntry) (k : TagEntryKey) :
    Option (TagEntry × List (Option TagEntry)) :=
  let values := etData.map (fun f => buildFileMap f.tag_entries k)
  match firstSome values with
  | some rep => some (rep, values)
  | none => none

def calculate_compare_data (etData : List ExiftoolEntry)
    (keyOrder : List TagEntryKey) : List (TagEntry × List (Option TagEntry)) :=
  keyOrder.filterMap (rowAt etData)

/-- The destination filesystem for `try_save_binary`: the downloads
directory path (the source's `user_dirs.download_dir()`) and the set of
existing paths. -/
structure SaveFS where
  downloads : String
  files : List String
deriving DecidableEq, Repr

/-- Path existence (`Path::exists`). -/
def SaveFS.pathExists (fs : SaveFS) (p : String) : Bool :=
  fs.files.contains p

/-- The source's `if dialog.fext.starts_with(".") { dialog.fext.remove(0) }`. -/
def stripLeadingDot (fext : String) : String :=
  if strStartsWith fext "." then ⟨fext.data.drop 1⟩ else fext

/-- `MainState::try_save_binary`. Returns the new state, the new
filesystem and `true` for `Ok(())` / `false` for `Err(())`. `binData`
stands for the external binary-extraction call
(`selected_entry().unwrap().get_binary(..)`): `none` when it fails, in
which case the source returns `Err(())` without writing. A `none` dialog
makes the source panic (`expect`); the dialog is always present at the
call site, modelled as a plain `Err` return. -/
def MainState.try_save_binary (s : MainState) (fs : SaveFS)
    (binData : Option (List Nat)) : MainState × SaveFS × Bool :=
  match s.binary_save_dialog with
  | none => (s, fs, false)
  | some dialog =>
    if dialog.fname.isEmpty then
      let d := { dialog with status := SaveStatus.err "Please enter a name." }
      ({ s with binary_save_dialog := some d }, fs, false)
    else if dialog.fext.isEmpty then
      let d := { dialog with status := SaveStatus.err "Please enter an extension." }
      ({ s with binary_save_dialog := some d }, fs, false)
    else
      let dialog' := { dialog with fext := stripLeadingDot dialog.fext }
      let path := fs.downloads ++ "/" ++ dialog'.fname ++ "." ++ dialog'.fext
      if fs.pathExists path then
        let d := { dialog' with status := SaveStatus.err "File with this name already exists!" }
        ({ s with binary_save_dialog := some d }, fs, false)
      else
        match binData with
        | none => ({ s with binary_save_dialog := some dialog' }, fs, false)
        | some _ =>
          let msg := SaveStatus.ok ("Succesfully saved at " ++ path)
          ({ s with binary_save_dialog := some dialog', log_msg := some msg },
           { fs with files := path :: fs.files }, true)

/-- `MainState::is_multiple_files`. -/
def MainState.is_multiple_files (s : MainState) : Bool :=
  decide (1 < s.et_data.length)

/-- The `KeyCode::Char('W')` handler in `main.rs`: remove the active file.
The match-arm guard (`is_multiple_files() && compare_data.mode.is_none()`)
is part of the handler; when it fails the key does nothing. The source's
`et_data.remove(i)` panics when `i` is out of range (the program keeps it
in range); `eraseIdx` is a no-op there. The final
`et_data[current_file_index].file_name` read is totalised with the old
value. -/
def removeActiveFile (s : MainState) : MainState :=
  if s.is_multiple_files && s.compare_data.mode.isNone then
    let et' := s.et_data.eraseIdx s.current_file_index
    let idx := if s.current_file_index = et'.length
      then s.current_file_index - 1 else s.current_file_index
    { s with et_data := et', current_file_index := idx,
             current_file := ((et'.get? idx).map ExiftoolEntry.file_name).getD s.current_file }
  else s

/-! Helper lemmas shared by the claim theorems. -/

theorem tagEq_refl (e : TagEntry) : tagEq e e = true := by
  simp [tagEq]

theorem tagEq_symm (a b : TagEntry) : tagEq a b = tagEq b a := by
  rw [tagEq, tagEq, decide_eq_decide]
  constructor
  · rintro ⟨h1, h2, h3, h4, h5, h6⟩
    exact ⟨h1.symm, h2.symm, h3.symm, h4.symm, h5.symm, h6.symm⟩
  · rintro ⟨h1, h2, h3, h4, h5, h6⟩
    exact ⟨h1.symm, h2.symm, h3.symm, h4.symm, h5.symm, h6.symm⟩

theorem slotAligned_iff (first slot : Option TagEntry) :
    slotAligned first slot = true ↔
      ((slot = none ∧ first = none)
        ∨ (∃ e f, slot = some e ∧ first = some f ∧ tagEq e f = true)) := by
  cases slot <;> cases first <;> simp [slotAligned]

/-- The single-file visible sequence: the active file's entries, in
extraction order, filtered by the filter predicate (an empty filter keeps
everything). -/
def visibleSingle (fd : ExiftoolEntry) (filter : String) : List TagEntry :=
  fd.tag_entries.filter (fun ee => filter.isEmpty || ee.check_filter filter)

/-- The compare-mode visible sequence: the compare rows filtered by the
filter predicate and, when diff-only is on, the diff predicate. -/
def visibleRows (rows : List (TagEntry × List (Option TagEntry)))
    (filter : String) (only_diff : Bool) : List (TagEntry × List (Option TagEntry)) :=
  rows.filter (fun ee => rowCheckFilter filter ee.2 && checkDiff only_diff ee.2)

/-- Sample entry used by concrete witnesses and counterexamples. -/
def tag0 : TagEntry :=
  { short_name := "Q", inst := "", binary_size_kb := none, name := "XY",
    id := none, table := ("T", ""), val := EtVal.str "v", num := none, index := none }

/-! Claim theorems. -/

/-- C4: for every visible row count `L > 0` and starting cursor in
`[0, L-1]`, `scrollv` with any delta leaves the cursor in `[0, L-1]`;
any delta `≤ -cursor` yields cursor 0 (saturating, never wrapping), and
any delta `≥ L - 1` yields cursor `L - 1`. -/
theorem scrollv_clamps (s : MainState) (delta : Int)
    (hL : 0 < s.num_entries_shown) (hc : s.cursor < s.num_entries_shown) :
    (s.scrollv delta).cursor < s.num_entries_shown
    ∧ (delta ≤ -(s.cursor : Int) → (s.scrollv delta).cursor = 0)
    ∧ ((s.num_entries_shown : Int) - 1 ≤ delta →
        (s.scrollv delta).cursor = s.num_entries_shown - 1) := by
  unfold MainState.scrollv
  split
  · next hneg =>
    refine ⟨?_, ?_, ?_⟩ <;> simp only [] <;> omega
  · next hpos =>
    refine ⟨?_, ?_, ?_⟩ <;> simp only [min_def] <;> split <;> omega

/-- Witness for C4 at a concrete state: 7 rows, cursor 3. -/
theorem scrollv_clamps_witness :
    (0 < 7 ∧ 3 < 7)
    ∧ (({ current_file := "", binary_save_dialog := none, filter := "",
          num_entries_shown := 7, et_data := [], current_file_index := 0,
          scroll_offset := (0, 0), cursor := 3, log_msg := none,
          compare_data := ⟨none, []⟩ : MainState }.scrollv (-100)).cursor < 7
        ∧ (((-100 : Int) ≤ -((3 : Nat) : Int)) →
            ({ current_file := "", binary_save_dialog := none, filter := "",
               num_entries_shown := 7, et_data := [], current_file_index := 0,
               scroll_offset := (0, 0), cursor := 3, log_msg := none,
               compare_data := ⟨none, []⟩ : MainState }.scrollv (-100)).cursor = 0)
        ∧ ((((7 : Nat) : Int) - 1 ≤ -100) →
            ({ current_file := "", binary_save_dialog := none, filter := "",
               num_entries_shown := 7, et_data := [], current_file_index := 0,
               scroll_offset := (0, 0), cursor := 3, log_msg := none,
               compare_data := ⟨none, []⟩ : MainState }.scrollv (-100)).cursor = 7 - 1)) :=
  ⟨⟨by decide, by decide⟩,
    scrollv_clamps
      { current_file := "", binary_save_dialog := none, filter := "",
        num_entries_shown := 7, et_data := [], current_file_index := 0,
        scroll_offset := (0, 0), cursor := 3, log_msg := none,
        compare_data := ⟨none, []⟩ } (-100) (by decide) (by decide)⟩

/-- C5: entry equality holds iff `short_name`, `binary_size_kb`, `id`,
`table`, `val` and `index` all match; the display name and the numeric
value are excluded, so entries with identical value but different numeric
value (or display name) compare equal. -/
theorem tagEq_spec (a b : TagEntry) :
    (tagEq a b = true ↔
      (a.short_name = b.short_name ∧ a.binary_size_kb = b.binary_size_kb
        ∧ a.id = b.id ∧ a.table = b.table ∧ a.val = b.val ∧ a.index = b.index))
    ∧ (∀ name₁ name₂ : String, ∀ num₁ num₂ : Option EtVal,
        tagEq { a with name := name₁, num := num₁ }
          { a with name := name₂, num := num₂ } = true) := by
  constructor
  · simp [tagEq]
  · intro name₁ name₂ num₁ num₂
    simp [tagEq]

/-- C2: with diff-only on, `checkDiff` classifies a row as differing iff
it is not the case that every slot is either absent together with the
first slot or present and `tagEq`-equal to a present first slot; in
particular an aligned all-equal row is excluded and a row present in
exactly one of two files is included. -/
theorem checkDiff_spec :
    (∀ v : List (Option TagEntry), v ≠ [] →
      (checkDiff true v = true ↔
        ¬ (∀ slot ∈ v,
            (slot = none ∧ v.headD none = none)
            ∨ (∃ e f, slot = some e ∧ v.headD none = some f ∧ tagEq e f = true))))
    ∧ (∀ e e' : TagEntry, tagEq e e' = true →
        checkDiff true [some e, some e'] = false)
    ∧ (∀ e : TagEntry, checkDiff true [some e, none] = true
        ∧ checkDiff true [none, some e] = true) := by
  refine ⟨?_, ?_, ?_⟩
  · intro v _
    have hm : checkDiff true v = !(v.all (slotAligned (v.headD none))) := by
      simp [checkDiff]
    rw [hm, Bool.not_eq_true', ← Bool.not_eq_true, List.all_eq_true]
    exact not_congr (forall₂_congr (fun slot _ => slotAligned_iff (v.headD none) slot))
  · intro e e' h
    have h' : tagEq e' e = true := by rw [tagEq_symm]; exact h
    simp [checkDiff, slotAligned, tagEq_refl, h']
  · intro e
    constructor <;> simp [checkDiff, slotAligned]

/-- Witness for C2 at a concrete row present only in the first of two
files. -/
theorem checkDiff_spec_witness :
    ([some tag0, none] : List (Option TagEntry)) ≠ []
    ∧ (checkDiff true [some tag0, none] = true ↔
        ¬ (∀ slot ∈ ([some tag0, none] : List (Option TagEntry)),
            (slot = none ∧ ([some tag0, none] : List (Option TagEntry)).headD none = none)
            ∨ (∃ e f, slot = some e
                ∧ ([some tag0, none] : List (Option TagEntry)).headD none = some f
                ∧ tagEq e f = true))) :=
  ⟨by decide, checkDiff_spec.1 [some tag0, none] (by decide)⟩

theorem getD_of_get? {α : Type} (l : List α) (i : Nat) (d x : α)
    (h : l.get? i = some x) : l.getD i d = x := by
  simp only [List.get?_eq_getElem?] at h
  simp [List.getD, h]

/-- C1: `selected_entry` resolves, with compare mode off, to the entry at
`cursor` within the active file's filtered entries (`none` when the cursor
is out of range of `List.get?`); with compare mode on, to the per-file
slot at `current_file_index` of the row at `cursor` within the
filter-and-diff-filtered compare rows, where an absent slot is a valid
`none` resolution and an out-of-range cursor yields `none`. -/
theorem selected_entry_spec (s : MainState) :
    (∀ fd, s.compare_data.mode = none →
        s.et_data.get? s.current_file_index = some fd →
        s.selected_entry = (visibleSingle fd s.filter).get? s.cursor)
    ∧ (∀ only_diff, s.compare_data.mode = some only_diff →
        (∀ row slot,
            (visibleRows s.compare_data.data s.filter only_diff).get? s.cursor
              = some row →
            row.2.get? s.current_file_index = some slot →
            s.selected_entry = slot)
        ∧ ((visibleRows s.compare_data.data s.filter only_diff).length ≤ s.cursor →
            s.selected_entry = none)) := by
  constructor
  · intro fd hmode hfd
    unfold MainState.selected_entry
    rw [hmode, hfd]
    rfl
  · intro only_diff hmode
    have hsel : s.selected_entry
        = (((visibleRows s.compare_data.data s.filter only_diff).map
            (fun entry => entry.2.getD s.current_file_index none)).get?
              s.cursor).getD none := by
      unfold MainState.selected_entry
      rw [hmode]
      rfl
    constructor
    · intro row slot hrow hslot
      rw [hsel, List.get?_map, hrow]
      simp only [Option.map_some', Option.getD_some]
      exact getD_of_get? _ _ _ _ hslot
    · intro hlen
      rw [hsel, List.get?_map,
        List.get?_eq_none.2 hlen]
      rfl

/-- Witness for C1 at a concrete single-file state with compare off. -/
theorem selected_entry_spec_witness :
    (({ current_file := "f", binary_save_dialog := none, filter := "",
        num_entries_shown := 1, et_data := [⟨"f", [tag0]⟩],
        current_file_index := 0, scroll_offset := (0, 0), cursor := 0,
        log_msg := none, compare_data := ⟨none, []⟩ : MainState }).compare_data.mode
      = none)
    ∧ (([⟨"f", [tag0]⟩] : List ExiftoolEntry).get? 0 = some ⟨"f", [tag0]⟩)
    ∧ (({ current_file := "f", binary_save_dialog := none, filter := "",
          num_entries_shown := 1, et_data := [⟨"f", [tag0]⟩],
          current_file_index := 0, scroll_offset := (0, 0), cursor := 0,
          log_msg := none, compare_data := ⟨none, []⟩ : MainState }).selected_entry
        = (visibleSingle ⟨"f", [tag0]⟩ "").get? 0) :=
  ⟨rfl, rfl,
    (selected_entry_spec
        { current_file := "f", binary_save_dialog := none, filter := "",
          num_entries_shown := 1, et_data := [⟨"f", [tag0]⟩],
          current_file_index := 0, scroll_offset := (0, 0), cursor := 0,
          log_msg := none, compare_data := ⟨none, []⟩ }).1
      ⟨"f", [tag0]⟩ rfl rfl⟩

/-- C10: both entry equality and `as_key` ignore the `instance` field, so
two entries in one file differing only in instance group collide to a
single `EntryKey`, occupy one compare row in which only the later entry
is retained, and compare equal under the diff predicate. -/
theorem instance_field_ignored :
    (∀ e : TagEntry, ∀ i₁ i₂ : String,
        TagEntry.as_key { e with inst := i₁ } = TagEntry.as_key { e with inst := i₂ }
        ∧ tagEq { e with inst := i₁ } { e with inst := i₂ } = true)
    ∧ (∀ e : TagEntry, ∀ i₂ fname : String,
        keyUnion [⟨fname, [e, { e with inst := i₂ }]⟩] = [e.as_key]
        ∧ calculate_compare_data [⟨fname, [e, { e with inst := i₂ }]⟩] [e.as_key]
            = [({ e with inst := i₂ }, [some { e with inst := i₂ }])])
    ∧ (∀ e : TagEntry, ∀ i₁ i₂ : String,
        checkDiff true [some { e with inst := i₁ }, some { e with inst := i₂ }]
          = false) := by
  refine ⟨?_, ?_, ?_⟩
  · intro e i₁ i₂
    exact ⟨rfl, by simp [tagEq]⟩
  · intro e i₂ fname
    have hb : buildFileMap [e, { e with inst := i₂ }] e.as_key
        = some { e with inst := i₂ } := by
      show (if e.as_key = ({ e with inst := i₂ } : TagEntry).as_key
          then some { e with inst := i₂ }
          else if e.as_key = e.as_key then some e else none)
        = some { e with inst := i₂ }
      exact if_pos rfl
    constructor
    · show ([e.as_key, e.as_key] : List TagEntryKey).dedup = [e.as_key]
      rw [List.dedup_cons_of_mem (by simp)]
      rw [List.dedup_cons_of_not_mem (by simp)]
      rfl
    · have hrow : rowAt [⟨fname, [e, { e with inst := i₂ }]⟩] e.as_key
          = some ({ e with inst := i₂ }, [some { e with inst := i₂ }]) := by
        unfold rowAt
        simp only [List.map_cons, List.map_nil, hb]
        rfl
      show List.filterMap _ [e.as_key] = _
      rw [List.filterMap_cons, hrow]
      rfl
  · intro e i₁ i₂
    have h : tagEq { e with inst := i₂ } { e with inst := i₁ } = true := by
      simp [tagEq]
    simp [checkDiff, slotAligned, h, tagEq_refl]

/-- The claim's criterion for a List-value match, stated from the spec's
words for comparison with the code: some list element's string rendering
contains the RAW (non-lowercased) filter text as a substring. -/
def claimedListValMatch (vs : List Json) (filter : String) : Bool :=
  vs.any (fun v => strContains v.render filter)

/-- Entry with a List value used to separate the claimed and actual
list-branch filter behavior: its name and short name do not contain the
probe filter, so only the value branch can match. -/
def c6entry : TagEntry :=
  { tag0 with val := EtVal.arr [Json.str "A"] }

/-- Counterexample for C6: for the filter text `"A"` (not of the `<<X>>`
form) and an entry whose List value's only element renders as `"A"` (with
quotes), the claimed criterion — raw filter contained in an element
rendering — holds, yet `check_filter` returns `false`, because the filter
is lowercased to `"a"` before the (non-lowercasing) list branch runs;
name, short name and numeric value cannot match either. -/
theorem check_filter_list_raw_counterexample :
    c6entry.val = EtVal.arr [Json.str "A"]
    ∧ (strStartsWith (strToLower "A") "<<"
        && strEndsWith (strToLower "A") ">>") = false
    ∧ claimedListValMatch [Json.str "A"] "A" = true
    ∧ strContains (strToLower c6entry.name) (strToLower "A") = false
    ∧ strContains (strToLower c6entry.short_name) (strToLower "A") = false
    ∧ c6entry.num = none
    ∧ c6entry.check_filter "A" = false := by
  refine ⟨rfl, by decide, by decide, by decide, by decide, rfl, by decide⟩

/-- C6 as amended: for an entry with a List value and a filter text not of
the `<<X>>` form, `check_filter` matches on the value exactly when some
list element's raw (non-lowercased) string rendering contains the
LOWERCASED filter text as a substring — the list branch itself performs no
lowercasing, but the filter was already lowercased once at the top of
`check_filter`. -/
theorem check_filter_list_amended (e : TagEntry) (vs : List Json) (filter : String)
    (hv : e.val = EtVal.arr vs)
    (hform : (strStartsWith (strToLower filter) "<<"
        && strEndsWith (strToLower filter) ">>") = false) :
    e.check_filter filter =
      (strContains (strToLower e.name) (strToLower filter)
        || strContains (strToLower e.short_name) (strToLower filter)
        || vs.any (fun v => strContains v.render (strToLower filter))
        || (match e.num with
            | some num => num.check_filter (strToLower filter)
            | none => false)) := by
  simp only [TagEntry.check_filter]
  rw [hform]
  simp only [Bool.false_eq_true, if_false]
  rw [hv]
  rfl

/-- Witness for the amended C6 at the counterexample entry and filter. -/
theorem check_filter_list_amended_witness :
    c6entry.val = EtVal.arr [Json.str "A"]
    ∧ ((strStartsWith (strToLower "A") "<<"
        && strEndsWith (strToLower "A") ">>") = false)
    ∧ (c6entry.check_filter "A" =
        (strContains (strToLower c6entry.name) (strToLower "A")
          || strContains (strToLower c6entry.short_name) (strToLower "A")
          || ([Json.str "A"] : List Json).any
              (fun v => strContains v.render (strToLower "A"))
          || (match c6entry.num with
              | some num => num.check_filter (strToLower "A")
              | none => false))) :=
  ⟨rfl, by decide, check_filter_list_amended c6entry [Json.str "A"] "A" rfl (by decide)⟩

/-- State for the C9 counterexample: three files, compare off, the active
file is the middle one. -/
def c9state : MainState :=
  { current_file := "B", binary_save_dialog := none, filter := "",
    num_entries_shown := 0,
    et_data := [⟨"A", []⟩, ⟨"B", []⟩, ⟨"C", []⟩],
    current_file_index := 1, scroll_offset := (0, 0), cursor := 0,
    log_msg := none, compare_data := ⟨none, []⟩ }

/-- Counterexample for C9: removing the active file (index 1 of 3, compare
off) leaves `current_file_index` at 1 — it is NOT decremented although it
pointed at the removed slot; the handler decrements only when the index
would otherwise equal the new file count. -/
theorem removeActiveFile_counterexample :
    c9state.et_data.length = 3
    ∧ c9state.current_file_index = 1
    ∧ c9state.compare_data.mode = none
    ∧ (removeActiveFile c9state).et_data.length = 2
    ∧ (removeActiveFile c9state).current_file_index = 1
    ∧ ¬ ((removeActiveFile c9state).current_file_index
          = c9state.current_file_index - 1) := by
  refine ⟨rfl, rfl, rfl, rfl, rfl, by decide⟩

/-- C9 as amended: removal of the active file is only enabled outside
compare mode with more than one file loaded; when enabled,
`current_file_index` is decremented exactly when it pointed at the last
file (it would otherwise equal the new file count), otherwise it is
unchanged, and it always remains within `[0, number_of_files - 1]` for
the new file count. -/
theorem removeActiveFile_amended (s : MainState)
    (h : s.current_file_index < s.et_data.length) :
    ((s.compare_data.mode ≠ none ∨ s.et_data.length ≤ 1) → removeActiveFile s = s)
    ∧ (s.compare_data.mode = none → 1 < s.et_data.length →
        (removeActiveFile s).et_data.length = s.et_data.length - 1
        ∧ (removeActiveFile s).current_file_index
            = (if s.current_file_index = s.et_data.length - 1
                then s.current_file_index - 1 else s.current_file_index)
        ∧ (removeActiveFile s).current_file_index < s.et_data.length - 1) := by
  have hlen : (s.et_data.eraseIdx s.current_file_index).length
      = s.et_data.length - 1 := by
    rw [List.length_eraseIdx]
    simp [h]
  constructor
  · intro hcase
    have hguard : (s.is_multiple_files && s.compare_data.mode.isNone) = false := by
      rcases hcase with hm | hl
      · have : s.compare_data.mode.isNone = false := by
          rcases hmode : s.compare_data.mode with _ | d
          · exact absurd hmode hm
          · rfl
        simp [this]
      · have : s.is_multiple_files = false := by
          simp [MainState.is_multiple_files]
          omega
        simp [this]
    rw [removeActiveFile, hguard]
    rfl
  · intro hm hl
    have hguard : (s.is_multiple_files && s.compare_data.mode.isNone) = true := by
      simp [MainState.is_multiple_files, hm, hl]
    rw [removeActiveFile, hguard]
    simp only [if_true]
    refine ⟨hlen, ?_, ?_⟩
    · rw [hlen]
    · rw [hlen]
      split <;> omega

/-- Witness for the amended C9: two files, active index 1, compare off. -/
theorem removeActiveFile_amended_witness :
    (({ c9state with et_data := [⟨"A", []⟩, ⟨"B", []⟩] } : MainState).current_file_index
        < ([⟨"A", []⟩, ⟨"B", []⟩] : List ExiftoolEntry).length)
    ∧ ((({ c9state with et_data := [⟨"A", []⟩, ⟨"B", []⟩] } : MainState).compare_data.mode ≠ none
          ∨ ([⟨"A", []⟩, ⟨"B", []⟩] : List ExiftoolEntry).length ≤ 1) →
        removeActiveFile { c9state with et_data := [⟨"A", []⟩, ⟨"B", []⟩] }
          = { c9state with et_data := [⟨"A", []⟩, ⟨"B", []⟩] })
    ∧ (({ c9state with et_data := [⟨"A", []⟩, ⟨"B", []⟩] } : MainState).compare_data.mode = none →
        1 < ([⟨"A", []⟩, ⟨"B", []⟩] : List ExiftoolEntry).length →
        (removeActiveFile { c9state with et_data := [⟨"A", []⟩, ⟨"B", []⟩] }).et_data.length
            = ([⟨"A", []⟩, ⟨"B", []⟩] : List ExiftoolEntry).length - 1
        ∧ (removeActiveFile { c9state with et_data := [⟨"A", []⟩, ⟨"B", []⟩] }).current_file_index
            = (if ({ c9state with et_data := [⟨"A", []⟩, ⟨"B", []⟩] } : MainState).current_file_index
                  = ([⟨"A", []⟩, ⟨"B", []⟩] : List ExiftoolEntry).length - 1
                then ({ c9state with et_data := [⟨"A", []⟩, ⟨"B", []⟩] } : MainState).current_file_index - 1
                else ({ c9state with et_data := [⟨"A", []⟩, ⟨"B", []⟩] } : MainState).current_file_index)
        ∧ (removeActiveFile { c9state with et_data := [⟨"A", []⟩, ⟨"B", []⟩] }).current_file_index
            < ([⟨"A", []⟩, ⟨"B", []⟩] : List ExiftoolEntry).length - 1) :=
  ⟨by decide,
    (removeActiveFile_amended { c9state with et_data := [⟨"A", []⟩, ⟨"B", []⟩] } (by decide)).1,
    (removeActiveFile_amended { c9state with et_data := [⟨"A", []⟩, ⟨"B", []⟩] } (by decide)).2⟩

/-- C8: `try_save_binary` refuses — returns `Err`, creates no file —
whenever the dialog filename is empty, the extension is empty, or the
destination path already exists; on every refusal the status message is a
user-visible error and every session/viewport field other than the dialog
itself (cursor, scroll offsets, filter, active file index, entry data,
compare data, log message, current file, visible-row count) is unchanged. -/
theorem try_save_binary_refusal (s : MainState) (fs : SaveFS)
    (binData : Option (List Nat)) (dialog : BinarySaveDialog)
    (hd : s.binary_save_dialog = some dialog)
    (hrefuse : dialog.fname.isEmpty = true ∨ dialog.fext.isEmpty = true
      ∨ fs.pathExists
          (fs.downloads ++ "/" ++ dialog.fname ++ "." ++ stripLeadingDot dialog.fext)
        = true) :
    (s.try_save_binary fs binData).2.2 = false
    ∧ (s.try_save_binary fs binData).2.1 = fs
    ∧ (s.try_save_binary fs binData).1.cursor = s.cursor
    ∧ (s.try_save_binary fs binData).1.scroll_offset = s.scroll_offset
    ∧ (s.try_save_binary fs binData).1.filter = s.filter
    ∧ (s.try_save_binary fs binData).1.current_file_index = s.current_file_index
    ∧ (s.try_save_binary fs binData).1.et_data = s.et_data
    ∧ (s.try_save_binary fs binData).1.num_entries_shown = s.num_entries_shown
    ∧ (s.try_save_binary fs binData).1.compare_data = s.compare_data
    ∧ (s.try_save_binary fs binData).1.current_file = s.current_file
    ∧ (s.try_save_binary fs binData).1.log_msg = s.log_msg
    ∧ ∃ d', (s.try_save_binary fs binData).1.binary_save_dialog = some d'
        ∧ ∃ msg, d'.status = SaveStatus.err msg := by
  obtain ⟨cf, bsd, flt, nes, etd, cfi, so, cur, lm, cd⟩ := s
  simp only [MainState.binary_save_dialog] at hd
  subst hd
  by_cases h1 : dialog.fname.isEmpty = true
  · simp [MainState.try_save_binary, h1]
  · by_cases h2 : dialog.fext.isEmpty = true
    · simp [MainState.try_save_binary, h1, h2]
    · have h3 : fs.pathExists
          (fs.downloads ++ "/" ++ dialog.fname ++ "." ++ stripLeadingDot dialog.fext)
          = true := by
        rcases hrefuse with ha | hb | hc
        · exact absurd ha h1
        · exact absurd hb h2
        · exact hc
      simp [MainState.try_save_binary, h1, h2, h3]

/-- Dialog and state for the C8 witness: an empty filename. -/
def c8dialog : BinarySaveDialog := ⟨"", "jpeg", SaveStatus.ok "m", true⟩

def c8state : MainState := { c9state with binary_save_dialog := some c8dialog }

/-- Witness for C8: a concrete refusal with an empty filename. -/
theorem try_save_binary_refusal_witness :
    (c8state.binary_save_dialog = some c8dialog)
    ∧ (c8dialog.fname.isEmpty = true ∨ c8dialog.fext.isEmpty = true
        ∨ SaveFS.pathExists ⟨"/dl", []⟩
            ("/dl" ++ "/" ++ c8dialog.fname ++ "." ++ stripLeadingDot c8dialog.fext)
          = true)
    ∧ (c8state.try_save_binary ⟨"/dl", []⟩ none).2.2 = false :=
  ⟨rfl, Or.inl (by decide),
    (try_save_binary_refusal c8state ⟨"/dl", []⟩ none c8dialog rfl
        (Or.inl (by decide))).1⟩

theorem fm_foldl_lookup (es : List TagEntry) (k : TagEntryKey) :
    ∀ init : TagEntryKey → Option TagEntry,
      (es.foldl (fun m e => fun k => if k = e.as_key then some e else m k) init) k
        = ((es.filter (fun e => decide (e.as_key = k))).getLast?).elim (init k) some := by
  induction es with
  | nil => intro init; rfl
  | cons e es ih =>
    intro init
    rw [List.foldl_cons, ih]
    by_cases he : e.as_key = k
    · rw [List.filter_cons_of_pos (by simp [he])]
      cases hfl : es.filter (fun e => decide (e.as_key = k)) with
      | nil =>
        simp only [Option.elim, List.getLast?_singleton]
        show (if k = e.as_key then some e else init k) = some e
        exact if_pos he.symm
      | cons b l =>
        rw [List.getLast?_cons_cons]
        have hx : ((b :: l).getLast?).isSome = true := by
          rw [List.getLast?_isSome]
          exact List.cons_ne_nil b l
        obtain ⟨x, hxx⟩ := Option.isSome_iff_exists.1 hx
        rw [hxx]
        rfl
    · have hne : (if k = e.as_key then some e else init k) = init k :=
        if_neg (fun hk => he hk.symm)
      rw [hne, List.filter_cons_of_neg (by simp [he])]

theorem buildFileMap_lookup (es : List TagEntry) (k : TagEntryKey) :
    buildFileMap es k
      = (es.filter (fun e => decide (e.as_key = k))).getLast? := by
  have h := fm_foldl_lookup es k (fun _ => none)
  have h2 : ((es.filter (fun e => decide (e.as_key = k))).getLast?).elim
      (none : Option TagEntry) some
      = (es.filter (fun e => decide (e.as_key = k))).getLast? := by
    cases (es.filter (fun e => decide (e.as_key = k))).getLast? <;> rfl
  exact h.trans h2

theorem firstSome_spec (l : List (Option TagEntry)) (r : TagEntry)
    (h : firstSome l = some r) :
    ∃ j, l.get? j = some (some r) ∧ ∀ j', j' < j → l.get? j' = some none := by
  induction l with
  | nil => simp [firstSome] at h
  | cons o l ih =>
    cases o with
    | some e =>
      have he : firstSome (some e :: l) = some e := by
        rw [firstSome, List.find?_cons_of_pos _ rfl]
        rfl
      rw [he] at h
      obtain rfl : e = r := Option.some.inj h
      exact ⟨0, rfl, fun j' hj' => absurd hj' (Nat.not_lt_zero _)⟩
    | none =>
      have hn : firstSome (none :: l) = firstSome l := by
        rw [firstSome, List.find?_cons_of_neg _ (by simp)]
        rfl
      rw [hn] at h
      obtain ⟨j, hj, hlt⟩ := ih h
      refine ⟨j + 1, hj, ?_⟩
      intro j' hj'
      cases j' with
      | zero => rfl
      | succ j'' => exact hlt j'' (by omega)

theorem firstSome_isSome (l : List (Option TagEntry))
    (h : ∃ v ∈ l, v.isSome = true) : (firstSome l).isSome = true := by
  have hf : (l.find? Option.isSome).isSome = true := List.find?_isSome.2 h
  obtain ⟨x, hx⟩ := Option.isSome_iff_exists.1 hf
  have hpx : x.isSome = true := List.find?_some hx
  rw [firstSome, hx]
  exact hpx

theorem filterMap_length_of_isSome {α β : Type} (f : α → Option β) (l : List α)
    (h : ∀ a ∈ l, (f a).isSome = true) : (l.filterMap f).length = l.length := by
  induction l with
  | nil => rfl
  | cons a l ih =>
    obtain ⟨b, hb⟩ := Option.isSome_iff_exists.1 (h a (List.mem_cons_self a l))
    rw [List.filterMap_cons, hb]
    simp only [List.length_cons]
    rw [ih (fun x hx => h x (List.mem_cons_of_mem a hx))]

theorem filterMap_get?_of_isSome {α β : Type} (f : α → Option β) (l : List α)
    (h : ∀ a ∈ l, (f a).isSome = true) (i : Nat) :
    (l.filterMap f).get? i = (l.get? i).bind f := by
  induction l generalizing i with
  | nil => simp
  | cons a l ih =>
    obtain ⟨b, hb⟩ := Option.isSome_iff_exists.1 (h a (List.mem_cons_self a l))
    rw [List.filterMap_cons, hb]
    cases i with
    | zero => simp [hb]
    | succ n => simpa using ih (fun x hx => h x (List.mem_cons_of_mem a hx)) n

theorem mem_keyUnion (k : TagEntryKey) (etData : List ExiftoolEntry) :
    k ∈ keyUnion etData
      ↔ ∃ fd ∈ etData, ∃ e ∈ fd.tag_entries, e.as_key = k := by
  rw [keyUnion, List.mem_dedup, List.mem_flatten]
  constructor
  · rintro ⟨l, hl, hkl⟩
    obtain ⟨fd, hfd, rfl⟩ := List.mem_map.1 hl
    obtain ⟨e, he, hek⟩ := List.mem_map.1 hkl
    exact ⟨fd, hfd, e, he, hek⟩
  · rintro ⟨fd, hfd, e, he, hek⟩
    exact ⟨fd.tag_entries.map TagEntry.as_key,
      List.mem_map.2 ⟨fd, hfd, rfl⟩, List.mem_map.2 ⟨e, he, hek⟩⟩

theorem rowAt_isSome_of_mem (etData : List ExiftoolEntry) (k : TagEntryKey)
    (hk : k ∈ keyUnion etData) : (rowAt etData k).isSome = true := by
  obtain ⟨fd, hfd, e, he, hek⟩ := (mem_keyUnion k etData).1 hk
  have hslot : (buildFileMap fd.tag_entries k).isSome = true := by
    rw [buildFileMap_lookup]
    have hmem : e ∈ fd.tag_entries.filter (fun e => decide (e.as_key = k)) :=
      List.mem_filter.2 ⟨he, by simp [hek]⟩
    have hne : fd.tag_entries.filter (fun e => decide (e.as_key = k)) ≠ [] :=
      List.ne_nil_of_mem hmem
    simpa [List.getLast?_isSome] using hne
  have hfs : (firstSome (etData.map
      (fun f => buildFileMap f.tag_entries k))).isSome = true := by
    apply firstSome_isSome
    exact ⟨buildFileMap fd.tag_entries k,
      List.mem_map.2 ⟨fd, hfd, rfl⟩, hslot⟩
  rw [rowAt]
  obtain ⟨rep, hrep⟩ := Option.isSome_iff_exists.1 hfs
  rw [hrep]
  rfl

/-- C3: for any enumeration `keyOrder` of the union of `EntryKey`s (the
iteration order of the source's `HashSet`, a permutation of the
duplicate-free union), `calculate_compare_data` yields exactly one row per
distinct key (row count = union size); each row has one slot per file, the
slot for file `i` being the last entry of file `i` in extraction order
with that key (`none` when the file lacks it); and the representative is
the slot of the first file, in file order, where the key is present. -/
theorem calculate_compare_data_spec (etData : List ExiftoolEntry)
    (keyOrder : List TagEntryKey) (hperm : keyOrder.Perm (keyUnion etData)) :
    (calculate_compare_data etData keyOrder).length = (keyUnion etData).length
    ∧ (∀ row ∈ calculate_compare_data etData keyOrder,
        row.2.length = etData.length)
    ∧ (∀ i k, keyOrder.get? i = some k →
        ∃ row, (calculate_compare_data etData keyOrder).get? i = some row
          ∧ row.2 = etData.map (fun fd =>
              (fd.tag_entries.filter (fun e => decide (e.as_key = k))).getLast?)
          ∧ (∃ j, row.2.get? j = some (some row.1)
              ∧ ∀ j', j' < j → row.2.get? j' = some none)) := by
  have hmem : ∀ a ∈ keyOrder, (rowAt etData a).isSome = true :=
    fun a ha => rowAt_isSome_of_mem etData a (hperm.mem_iff.1 ha)
  refine ⟨?_, ?_, ?_⟩
  · rw [calculate_compare_data, filterMap_length_of_isSome _ _ hmem,
      hperm.length_eq]
  · intro row hrow
    rw [calculate_compare_data, List.mem_filterMap] at hrow
    obtain ⟨k, _, hr⟩ := hrow
    rw [rowAt] at hr
    rcases hf : firstSome (etData.map (fun f => buildFileMap f.tag_entries k))
      with _ | rep
    · rw [hf] at hr
      exact absurd hr (by simp)
    · rw [hf] at hr
      obtain rfl : (rep, etData.map (fun f => buildFileMap f.tag_entries k)) = row :=
        Option.some.inj hr
      simp
  · intro i k hik
    have hcalc : (calculate_compare_data etData keyOrder).get? i
        = rowAt etData k := by
      rw [calculate_compare_data, filterMap_get?_of_isSome _ _ hmem, hik]
      rfl
    have hkmem : k ∈ keyUnion etData :=
      hperm.mem_iff.1 (List.get?_mem hik)
    have hsome := rowAt_isSome_of_mem etData k hkmem
    rw [rowAt] at hcalc hsome
    rcases hf : firstSome (etData.map (fun f => buildFileMap f.tag_entries k))
      with _ | rep
    · rw [hf] at hsome
      exact absurd hsome (by simp)
    · rw [hf] at hcalc
      refine ⟨(rep, etData.map (fun f => buildFileMap f.tag_entries k)),
        hcalc, ?_, ?_⟩
      · exact List.map_congr_left (fun fd _ => buildFileMap_lookup fd.tag_entries k)
      · exact firstSome_spec _ _ hf

/-- Data for the C3 witness: one file with one entry. -/
def c3file : ExiftoolEntry := ⟨"w", [tag0]⟩

/-- Witness for C3 at one file with one entry, with the only possible
iteration order. -/
theorem calculate_compare_data_spec_witness :
    ([tag0.as_key] : List TagEntryKey).Perm (keyUnion [c3file])
    ∧ (calculate_compare_data [c3file] [tag0.as_key]).length
        = (keyUnion [c3file]).length :=
  ⟨by decide,
    (calculate_compare_data_spec [c3file] [tag0.as_key] (by decide)).1⟩

/-- Files and keys for the C7 counterexample: two files sharing the key
set {Make, Model}. -/
def c7fileA : ExiftoolEntry :=
  ⟨"a", [{ tag0 with short_name := "Make", val := EtVal.str "Canon" },
         { tag0 with short_name := "Model", val := EtVal.str "R5" }]⟩

def c7fileB : ExiftoolEntry :=
  ⟨"b", [{ tag0 with short_name := "Make", val := EtVal.str "Canon" },
         { tag0 with short_name := "Model", val := EtVal.str "R6" }]⟩

def c7kMake : TagEntryKey := ⟨"Make", ("T", "")⟩

def c7kModel : TagEntryKey := ⟨"Model", ("T", "")⟩

/-- C7 (code bug): both `[Make, Model]` and `[Model, Make]` are valid
iteration orders of the key-union `HashSet` (permutations of the
duplicate-free union), yet they produce different outputs — the same rows
in a different order. The source's row order therefore follows the
runtime-random hasher state, not the input. -/
theorem calculate_compare_data_order_dependent :
    ([c7kMake, c7kModel] : List TagEntryKey).Perm (keyUnion [c7fileA, c7fileB])
    ∧ ([c7kModel, c7kMake] : List TagEntryKey).Perm (keyUnion [c7fileA, c7fileB])
    ∧ calculate_compare_data [c7fileA, c7fileB] [c7kMake, c7kModel]
        ≠ calculate_compare_data [c7fileA, c7fileB] [c7kModel, c7kMake] := by
  refine ⟨by decide, by decide, by decide⟩

end ExifTui
